import Mathlib

/-!
Shallow embedding of `main.py` (MySQL daily backup to Aliyun OSS) and proofs
about its backup lifecycle: dump → compress → upload → local retention sweep,
plus the standalone remote retention sweep.

Python `datetime` values are modelled as a calendar date (proleptic Gregorian
ordinal, as in `date.toordinal`) together with microseconds elapsed since
midnight; comparisons between `datetime` values become integer comparisons on
total microseconds.  Filenames are `String`s, with the parsing pipeline
(`split("_")[-1]`, `.replace(".sql.gz", "")`, `strptime(..., "%Y%m%d")`)
embedded as executable functions on `List Char`.  The local directory is an
association list from filename to a tag recording what the file holds; the
OSS bucket is a list of keys.  External failures (mysqldump exit code, gzip
I/O error, OSS upload error) are injected through a `Faults` record.
-/

namespace MysqlBackup

/-! ## Characters and digit strings -/

/-- Numeric value of a digit character (`ord(c) - ord('0')`). -/
def charVal (c : Char) : Nat := c.toNat - 48

/-- The digit character for `n < 10` (`chr(ord('0') + n)`). -/
def digitChar (n : Nat) : Char := Char.ofNat (48 + n)

/-- Zero-padded 4-digit rendering, as in `strftime("%Y")` for years ≤ 9999. -/
def pad4 (n : Nat) : List Char :=
  [digitChar (n / 1000 % 10), digitChar (n / 100 % 10),
   digitChar (n / 10 % 10), digitChar (n % 10)]

/-- Zero-padded 2-digit rendering, as in `strftime("%m")` / `strftime("%d")`. -/
def pad2 (n : Nat) : List Char := [digitChar (n / 10 % 10), digitChar (n % 10)]

/-! ## Calendar dates -/

/-- A calendar date, day granularity, as carried by a parsed `datetime`. -/
structure Date where
  year : Nat
  month : Nat
  day : Nat
deriving DecidableEq, Repr

/-- Python's Gregorian leap-year rule (`calendar.isleap`). -/
def isLeapYear (y : Nat) : Bool :=
  (y % 4 == 0 && y % 100 != 0) || y % 400 == 0

/-- Number of days in a month of a given year. -/
def daysInMonth (y m : Nat) : Nat :=
  if m = 2 then (if isLeapYear y then 29 else 28)
  else if m = 4 ∨ m = 6 ∨ m = 9 ∨ m = 11 then 30
  else 31

/-- Days in the same year strictly before month `m`. -/
def daysBeforeMonth (y m : Nat) : Nat :=
  (match m with
   | 1 => 0 | 2 => 31 | 3 => 59 | 4 => 90 | 5 => 120 | 6 => 151
   | 7 => 181 | 8 => 212 | 9 => 243 | 10 => 273 | 11 => 304 | _ => 334)
  + (if 2 < m ∧ isLeapYear y then 1 else 0)

/-- Proleptic Gregorian ordinal of a date (`date(y,m,d).toordinal()`),
so that subtracting ordinals counts calendar days. -/
def Date.toOrdinal (dt : Date) : Int :=
  let y : Int := (dt.year : Int) - 1
  365 * y + y / 4 - y / 100 + y / 400
    + (daysBeforeMonth dt.year dt.month : Int) + ((dt.day : Int) - 1)

/-- The dates `datetime` can represent: `MINYEAR ≤ year ≤ MAXYEAR` and a real
day of a real month. -/
def ValidDate (dt : Date) : Prop :=
  1 ≤ dt.year ∧ dt.year ≤ 9999 ∧ 1 ≤ dt.month ∧ dt.month ≤ 12 ∧
    1 ≤ dt.day ∧ dt.day ≤ daysInMonth dt.year dt.month

instance (dt : Date) : Decidable (ValidDate dt) := by
  unfold ValidDate; infer_instance

/-- Characters of `strftime("%Y%m%d")` of a date. -/
def formatChars (dt : Date) : List Char :=
  pad4 dt.year ++ pad2 dt.month ++ pad2 dt.day

/-- Rendering `strftime("%Y%m%d")` of a date (the `self.today` string). -/
def formatYYYYMMDD (dt : Date) : String := String.mk (formatChars dt)

/-! ## Datetimes

A `datetime.now()` value: its calendar date plus the microseconds elapsed
since that day's midnight (`0 ≤ usec < 86400000000` for real clock values). -/

structure DateTime where
  date : Date
  usec : Nat
deriving DecidableEq, Repr

/-- Microseconds per day. -/
def usecPerDay : Nat := 86400000000

/-- A `datetime` as total microseconds from the epoch; `datetime` comparison
is integer comparison of this value. -/
def DateTime.toUsec (t : DateTime) : Int :=
  t.date.toOrdinal * usecPerDay + t.usec

/-- The `datetime` produced by `strptime(s, "%Y%m%d")`: midnight of the
parsed date, as total microseconds. -/
def midnightUsec (dt : Date) : Int := dt.toOrdinal * usecPerDay

/-- The comparison `file_date < now - timedelta(days=keep)` performed by both
retention sweeps: true exactly when the artifact is deleted. -/
def deleteEligible (keep : Nat) (now : DateTime) (dt : Date) : Bool :=
  midnightUsec dt < now.toUsec - keep * usecPerDay

/-! ## Filename parsing

The retention sweeps recover the artifact date from its filename via
`name.split("_")[-1].replace(".sql.gz", "")` followed by
`datetime.strptime(s, "%Y%m%d")`. -/

/-- Python `s.split(sep)[-1]`: the segment after the last occurrence of `sep`
(the whole string when `sep` is absent). -/
def splitLastSegment (sep : Char) (cs : List Char) : List Char :=
  cs.foldl (fun acc c => if c = sep then [] else acc ++ [c]) []

/-- The characters of the literal `".sql.gz"`. -/
def sqlGzChars : List Char := ['.', 's', 'q', 'l', '.', 'g', 'z']

/-- Fuel-driven worker for `removeAll`; the fuel (initially the input length)
never runs out because each step consumes at least one character. -/
def removeAllAux (pat : List Char) : Nat → List Char → List Char
  | 0, cs => cs
  | _ + 1, [] => []
  | n + 1, c :: cs =>
    if (c :: cs).take pat.length = pat then
      removeAllAux pat n ((c :: cs).drop pat.length)
    else
      c :: removeAllAux pat n cs

/-- Python `str.replace(pat, "")`: remove every occurrence of `pat`,
scanning left to right. -/
def removeAll (pat cs : List Char) : List Char := removeAllAux pat cs.length cs

/-- Directive `%Y` of CPython `strptime`: exactly four digits. -/
def matchYear : List Char → Option (Nat × List Char)
  | a :: b :: c :: d :: rest =>
    if a.isDigit && b.isDigit && c.isDigit && d.isDigit then
      some (1000 * charVal a + 100 * charVal b + 10 * charVal c + charVal d,
        rest)
    else none
  | _ => none

/-- Directive `%m` of CPython `strptime`: the regex `1[0-2]|0[1-9]|[1-9]`.
Since the regex engine backtracks into this alternation when the following
`%d` fails, the embedding lists every locally matching alternative, in the
order the engine tries them. -/
def monthAlts : List Char → List (Nat × List Char)
  | c1 :: c2 :: rest =>
    (if c1 = '1' ∧ (c2 = '0' ∨ c2 = '1' ∨ c2 = '2') then
       [(10 + charVal c2, rest)]
     else [])
    ++ (if c1 = '0' ∧ c2.isDigit ∧ c2 ≠ '0' then [(charVal c2, rest)]
        else [])
    ++ (if c1.isDigit ∧ c1 ≠ '0' then [(charVal c1, c2 :: rest)] else [])
  | [c1] => if c1.isDigit ∧ c1 ≠ '0' then [(charVal c1, [])] else []
  | [] => []

/-- Directive `%d` of CPython `strptime`: the regex `3[01]|[12]\d|0[1-9]|[1-9]`,
alternatives tried in that order.  `%d` is the last directive of the
format, and `_strptime` checks for unconverted trailing data only after
the regex match, so nothing ever forces backtracking out of the first
matching `%d` alternative: a committed first-match is faithful here. -/
def matchDay : List Char → Option (Nat × List Char)
  | c1 :: c2 :: rest =>
    if c1 = '3' ∧ (c2 = '0' ∨ c2 = '1') then some (30 + charVal c2, rest)
    else if (c1 = '1' ∨ c1 = '2') ∧ c2.isDigit then
      some (10 * charVal c1 + charVal c2, rest)
    else if c1 = '0' ∧ c2.isDigit ∧ c2 ≠ '0' then some (charVal c2, rest)
    else if c1.isDigit ∧ c1 ≠ '0' then some (charVal c1, c2 :: rest)
    else none
  | [c1] => if c1.isDigit ∧ c1 ≠ '0' then some (charVal c1, []) else none
  | [] => none

/-- Backtracking combination of `%m` and `%d`: take the first month
alternative, in regex preference order, after which `%d` matches — exactly
the pair the regex engine commits to (the end-of-input check is outside
the regex and triggers no further backtracking). -/
def firstMD : List (Nat × List Char) → Option (Nat × Nat × List Char)
  | [] => none
  | (m, rest) :: alts =>
    match matchDay rest with
    | some (d, r) => some (m, d, r)
    | none => firstMD alts

/-- Python `datetime.strptime(s, "%Y%m%d")`: run the `%Y%m%d` regex with
backtracking (so `"202411"` parses as 2024-01-01 and `"2024110"` as
2024-01-10), raise (`none`) when unconverted data remains, and validate
the resulting calendar date as the `datetime` constructor does. -/
def strptimeYYYYMMDD (cs : List Char) : Option Date :=
  match matchYear cs with
  | none => none
  | some (y, r1) =>
    match firstMD (monthAlts r1) with
    | none => none
    | some (m, d, r3) =>
      if r3 = [] then
        if 1 ≤ y ∧ y ≤ 9999 ∧ 1 ≤ m ∧ m ≤ 12 ∧ 1 ≤ d ∧
            d ≤ daysInMonth y m then
          some ⟨y, m, d⟩
        else none
      else none

/-- The date-string a sweep extracts from a filename:
`name.split("_")[-1].replace(".sql.gz", "")`. -/
def extractDateStr (name : String) : List Char :=
  removeAll sqlGzChars (splitLastSegment '_' name.data)

/-- Parsed artifact date of a filename, `none` when `strptime` raises. -/
def parseFileDate (name : String) : Option Date :=
  strptimeYYYYMMDD (extractDateStr name)

/-- Whether `cs` ends with `suf` (`str.endswith`). -/
def endsWithList (cs suf : List Char) : Bool :=
  cs.drop (cs.length - suf.length) = suf

/-- Membership test of `pathlib.Path.glob("*.sql.gz")` on a filename: a
`.sql.gz` suffix.  Unlike the `glob` module, `pathlib`'s glob does match
hidden files (names with a leading dot), so no hidden-file exclusion
applies. -/
def globMatch (name : String) : Bool :=
  endsWithList name.data sqlGzChars

/-! ## Stores, faults, and the orchestrator

The local backup directory is an association list from filename to a tag for
what the file holds; the OSS bucket is a list of keys.  A `put` or an
`open(..., "wb")` overwrites any existing entry of the same name. -/

/-- What a file in the local backup directory holds. -/
inductive FKind
  /-- The raw `mysqldump` output (`.sql`). -/
  | raw
  /-- A fully written, closed gzip stream. -/
  | gzFull
  /-- A partially written gzip stream (compression failed mid-write). -/
  | gzPart
  /-- A pre-existing file whose contents this model does not track. -/
  | other
deriving DecidableEq, Repr

/-- Local directory and remote bucket contents. -/
structure St where
  files : List (String × FKind)
  remote : List String
deriving DecidableEq, Repr

/-- Create-or-truncate a local file (`path.open("wb")`): any entries of that
name are replaced by a single one holding `k`. -/
def setFile (files : List (String × FKind)) (n : String) (k : FKind) :
    List (String × FKind) :=
  files.filter (fun p => p.1 ≠ n) ++ [(n, k)]

/-- Python `path.unlink()`: drop the entry of that name. -/
def delFile (files : List (String × FKind)) (n : String) :
    List (String × FKind) :=
  files.filter (fun p => p.1 ≠ n)

/-- Contents of a local file, `none` when absent. -/
def getKind (files : List (String × FKind)) (n : String) : Option FKind :=
  (files.find? (fun p => p.1 = n)).map (·.2)

/-- How many directory entries carry the name `n`. -/
def countName (files : List (String × FKind)) (n : String) : Nat :=
  (files.filter (fun p => p.1 = n)).length

/-- Client call `bucket.put_object_from_file(key, ...)`: overwrite-or-create the object
at `key`. -/
def putKey (remote : List String) (key : String) : List String :=
  remote.filter (fun x => x ≠ key) ++ [key]

/-- How many objects carry the key `k`. -/
def countKey (remote : List String) (k : String) : Nat :=
  (remote.filter (fun x => x = k)).length

/-- Injected outcomes of the three external operations. -/
structure Faults where
  /-- `mysqldump`'s exit status (`process.returncode`). -/
  dumpExitCode : Nat
  /-- Whether the gzip write raises an I/O error partway. -/
  compressFails : Bool
  /-- Whether `put_object_from_file` raises an `OssError`. -/
  uploadFails : Bool
deriving DecidableEq, Repr

/-- No injected failures. -/
def noFaults : Faults := ⟨0, false, false⟩

/-- Observable lifecycle events, in the order they happen. -/
inductive Ev
  | dumpOk
  | dumpFailed
  /-- `gz_file.open("wb")` succeeded: the compressed file now exists. -/
  | gzOpened
  /-- The gzip stream was fully written and closed. -/
  | gzClosed
  | compressFailed
  /-- `dump_file.unlink()` ran (success path or error handler). -/
  | rawRemoved
  | uploadOk
  | uploadFailed
  /-- `clean_local_backups()` was invoked. -/
  | localCleanupRan
deriving DecidableEq, Repr

/-- Outcome of a step or of a whole run: Python truthiness of the result
(`ok = false` when an exception escaped), the resulting stores, and the
event trace. -/
structure RunResult where
  ok : Bool
  st : St
  evs : List Ev
deriving DecidableEq, Repr

/-- Method `BackupManager.run_mysqldump`: write the raw dump to
`{db}_{today}.sql`, raise on a non-zero exit code, gzip it into
`{db}_{today}.sql.gz`, unlink the raw file, and on any exception unlink the
raw file (if present) and re-raise. -/
def run_mysqldump (db today : String) (fl : Faults) (st : St) : RunResult :=
  let dumpName := db ++ "_" ++ today ++ ".sql"
  let gzName := db ++ "_" ++ today ++ ".sql.gz"
  let files1 := setFile st.files dumpName .raw
  if fl.dumpExitCode ≠ 0 then
    { ok := false, st := { st with files := delFile files1 dumpName },
      evs := [.dumpFailed, .rawRemoved] }
  else
    let files2 := setFile files1 gzName .gzPart
    if fl.compressFails then
      { ok := false, st := { st with files := delFile files2 dumpName },
        evs := [.dumpOk, .gzOpened, .compressFailed, .rawRemoved] }
    else
      let files3 := setFile files2 gzName .gzFull
      { ok := true, st := { st with files := delFile files3 dumpName },
        evs := [.dumpOk, .gzOpened, .gzClosed, .rawRemoved] }

/-- One `clean_local_backups` loop iteration over the remaining glob
matches: `strptime` raising aborts the sweep (second component: the filename
it raised on), an eligible file is unlinked, the rest are left alone. -/
def clean_local_go (keep : Nat) (now : DateTime) :
    List String → List (String × FKind) →
      List (String × FKind) × Option String
  | [], files => (files, none)
  | f :: fs, files =>
    match parseFileDate f with
    | none => (files, some f)
    | some d =>
      if deleteEligible keep now d then
        clean_local_go keep now fs (delFile files f)
      else
        clean_local_go keep now fs files

/-- The filenames `self.local_dir.glob("*.sql.gz")` yields, in directory
order. -/
def globNames (files : List (String × FKind)) : List String :=
  (files.map Prod.fst).filter (fun n => globMatch n)

/-- Method `BackupManager.clean_local_backups`: sweep the glob matches, deleting
every file whose parsed date is before `now - timedelta(days=keep)`.  The
`strptime` call sits outside any `try`, so an unparsable name raises out of
the sweep; the second component is `some f` when that happened at file
`f`. -/
def clean_local_backups (keep : Nat) (now : DateTime)
    (files : List (String × FKind)) :
    List (String × FKind) × Option String :=
  clean_local_go keep now (globNames files) files

/-- Whether the local sweep would delete a (parsable) filename. -/
def localDeletes (keep : Nat) (now : DateTime) (f : String) : Bool :=
  match parseFileDate f with
  | some d => deleteEligible keep now d
  | none => false

/-- Whether `clean_oss_backups` deletes the object at `key`: listed under
the prefix, a `.sql.gz` key, and its parsed date (parse errors are caught
and logged per key) before `now - timedelta(days=keep)`. -/
def ossKeyEligible (pre : String) (keep : Nat) (now : DateTime)
    (key : String) : Bool :=
  pre.data.isPrefixOf key.data && endsWithList key.data sqlGzChars &&
    (match strptimeYYYYMMDD
        (removeAll sqlGzChars
          (splitLastSegment '_' (splitLastSegment '/' key.data))) with
     | some d => deleteEligible keep now d
     | none => false)

/-- Method `BackupManager.clean_oss_backups`: iterate the bucket listing under the
prefix and delete every eligible object; per-key exceptions are caught, so
the sweep never raises.  Returns the resulting bucket contents and the list
of keys it deleted, in deletion order. -/
def clean_oss_backups (pre : String) (keep : Nat) (now : DateTime)
    (remote : List String) : List String × List String :=
  remote.foldl
    (fun acc key =>
      if ossKeyEligible pre keep now key then
        (acc.1.filter (fun x => x ≠ key), acc.2 ++ [key])
      else acc)
    (remote, [])

/-- Process-wide configuration (the `CONFIG` entries the orchestrator
reads). -/
structure Config where
  mysql_database : String
  keep_local_days : Nat
  oss_prefix : String
  keep_oss_days : Nat
deriving Repr

/-- Method `BackupManager.execute`: dump-and-compress, upload, local cleanup, with
one broad `except` returning `False`; `clean_oss_backups` is commented out.
Any exception from a step skips the remaining steps. -/
def execute (cfg : Config) (fl : Faults) (now : DateTime) (st : St) :
    RunResult :=
  let today := formatYYYYMMDD now.date
  let r1 := run_mysqldump cfg.mysql_database today fl st
  if r1.ok then
    if fl.uploadFails then
      { ok := false, st := r1.st, evs := r1.evs ++ [.uploadFailed] }
    else
      let key := cfg.oss_prefix ++
        (cfg.mysql_database ++ "_" ++ today ++ ".sql.gz")
      let rem := putKey r1.st.remote key
      let cl := clean_local_backups cfg.keep_local_days now r1.st.files
      { ok := cl.2 = none, st := { files := cl.1, remote := rem },
        evs := r1.evs ++ [.uploadOk, .localCleanupRan] }
  else
    r1

/-- The environment variables the `__main__` block requires. -/
def requiredEnvs : List String :=
  ["MYSQL_USER", "MYSQL_PASSWORD", "MYSQL_DATABASE",
   "OSS_ACCESS_KEY_ID", "OSS_ACCESS_KEY_SECRET",
   "OSS_ENDPOINT", "OSS_BUCKET"]

/-- Python truthiness of `not os.getenv(var)`: unset, or set to the empty
string. -/
def envFalsy (env : String → Option String) (v : String) : Bool :=
  match env v with
  | none => true
  | some s => s = ""

/-- The `missing` list computed by the `__main__` block. -/
def missingEnvs (env : String → Option String) : List String :=
  requiredEnvs.filter (envFalsy env)

/-- The `__main__` block: `exit(1)` when a required variable is missing,
otherwise `exit(0 if manager.execute() else 1)`. -/
def mainExitCode (env : String → Option String) (cfg : Config)
    (fl : Faults) (now : DateTime) (st : St) : Nat :=
  if missingEnvs env ≠ [] then 1
  else if (execute cfg fl now st).ok then 0 else 1

/-- The local filename of the artifact for database `db` on date `d`. -/
def gzFileName (db : String) (d : Date) : String :=
  db ++ "_" ++ formatYYYYMMDD d ++ ".sql.gz"

/-- The raw dump filename for database `db` on date `d`. -/
def dumpFileName (db : String) (d : Date) : String :=
  db ++ "_" ++ formatYYYYMMDD d ++ ".sql"

/-- The OSS object key the run uploads to. -/
def ossObjectKey (pre db : String) (d : Date) : String :=
  pre ++ (db ++ "_" ++ formatYYYYMMDD d ++ ".sql.gz")

/-! ## Lemmas: digits and the format/parse roundtrip -/

lemma digitChar_isDigit {k : Nat} (h : k < 10) :
    (digitChar k).isDigit = true := by
  interval_cases k <;> decide

lemma charVal_digitChar {k : Nat} (h : k < 10) : charVal (digitChar k) = k := by
  interval_cases k <;> decide

lemma digitChar_ne_underscore {k : Nat} (h : k < 10) : digitChar k ≠ '_' := by
  interval_cases k <;> decide

lemma digitChar_ne_dot {k : Nat} (h : k < 10) : digitChar k ≠ '.' := by
  interval_cases k <;> decide

lemma mem_formatChars {dt : Date} {c : Char} (h : c ∈ formatChars dt) :
    ∃ k, k < 10 ∧ c = digitChar k := by
  simp only [formatChars, pad4, pad2, List.mem_append, List.mem_cons,
    List.not_mem_nil, or_false] at h
  rcases h with ((h | h | h | h) | h | h) | h | h <;>
    exact ⟨_, Nat.mod_lt _ (by norm_num), h⟩

lemma formatChars_ne_underscore {dt : Date} {c : Char}
    (h : c ∈ formatChars dt) : c ≠ '_' := by
  obtain ⟨k, hk, rfl⟩ := mem_formatChars h
  exact digitChar_ne_underscore hk

lemma formatChars_ne_dot {dt : Date} {c : Char} (h : c ∈ formatChars dt) :
    c ≠ '.' := by
  obtain ⟨k, hk, rfl⟩ := mem_formatChars h
  exact digitChar_ne_dot hk

lemma matchYear_pad4 {y : Nat} (hy : y ≤ 9999) (rest : List Char) :
    matchYear (pad4 y ++ rest) = some (y, rest) := by
  have h1 : y / 1000 % 10 < 10 := Nat.mod_lt _ (by norm_num)
  have h2 : y / 100 % 10 < 10 := Nat.mod_lt _ (by norm_num)
  have h3 : y / 10 % 10 < 10 := Nat.mod_lt _ (by norm_num)
  have h4 : y % 10 < 10 := Nat.mod_lt _ (by norm_num)
  simp only [pad4, matchYear, List.cons_append, List.nil_append,
    digitChar_isDigit h1, digitChar_isDigit h2, digitChar_isDigit h3,
    digitChar_isDigit h4, Bool.and_self, if_true,
    charVal_digitChar h1, charVal_digitChar h2, charVal_digitChar h3,
    charVal_digitChar h4, Option.some.injEq, Prod.mk.injEq, and_true]
  omega

lemma matchDay_pad2 {d : Nat} (h1 : 1 ≤ d) (h2 : d ≤ 31)
    (rest : List Char) : matchDay (pad2 d ++ rest) = some (d, rest) := by
  interval_cases d <;> rfl

/-- On a canonical zero-padded `MMDD` tail, the backtracking `%m%d` match
recovers exactly the intended month and day. -/
lemma firstMD_pad2 {m d : Nat} (hm1 : 1 ≤ m) (hm2 : m ≤ 12) (hd1 : 1 ≤ d)
    (hd2 : d ≤ 31) :
    firstMD (monthAlts (pad2 m ++ pad2 d)) = some (m, d, []) := by
  have hD : matchDay
      [Char.ofNat (48 + d / 10 % 10), Char.ofNat (48 + d % 10)]
      = some (d, []) := by
    simpa [pad2, digitChar] using matchDay_pad2 hd1 hd2 []
  interval_cases m <;>
    simp [monthAlts, firstMD, pad2, digitChar, charVal, hD]

/-- Round trip: `strptime(d.strftime("%Y%m%d"), "%Y%m%d")` recovers the
date. -/
lemma strptime_formatChars {dt : Date} (h : ValidDate dt) :
    strptimeYYYYMMDD (formatChars dt) = some dt := by
  obtain ⟨hy1, hy2, hm1, hm2, hd1, hd2⟩ := h
  have hd31 : dt.day ≤ 31 := by
    refine hd2.trans ?_
    unfold daysInMonth
    split <;> [split <;> omega; split <;> omega]
  have hY := matchYear_pad4 hy2 (pad2 dt.month ++ pad2 dt.day)
  have hMD := firstMD_pad2 hm1 hm2 hd1 hd31
  rw [formatChars, List.append_assoc]
  simp [strptimeYYYYMMDD, hY, hMD, hy1, hy2, hm1, hm2, hd1, hd2]

/-! ## Lemmas: splitting, suffix removal, and the constructed filenames -/

lemma foldl_split_no_sep {sep : Char} {post : List Char}
    (h : ∀ c ∈ post, c ≠ sep) (a : List Char) :
    post.foldl (fun acc c => if c = sep then [] else acc ++ [c]) a
      = a ++ post := by
  induction post generalizing a with
  | nil => simp
  | cons c cs ih =>
    have hc : c ≠ sep := h c (List.mem_cons_self c cs)
    simp only [List.foldl_cons, if_neg hc]
    rw [ih (fun x hx => h x (List.mem_cons_of_mem c hx))]
    simp

lemma splitLastSegment_append {sep : Char} (pre : List Char)
    {post : List Char} (h : ∀ c ∈ post, c ≠ sep) :
    splitLastSegment sep (pre ++ sep :: post) = post := by
  unfold splitLastSegment
  rw [List.foldl_append, List.foldl_cons, if_pos rfl,
    foldl_split_no_sep h []]
  simp

lemma splitLastSegment_no_sep {sep : Char} {cs : List Char}
    (h : ∀ c ∈ cs, c ≠ sep) : splitLastSegment sep cs = cs := by
  unfold splitLastSegment
  rw [foldl_split_no_sep h []]
  simp

lemma removeAllAux_nil (pat : List Char) (n : Nat) :
    removeAllAux pat n [] = [] := by
  cases n <;> rfl

lemma removeAllAux_sqlGz_append : ∀ (ds : List Char) (fuel : Nat),
    (∀ c ∈ ds, c ≠ '.') → ds.length + 7 ≤ fuel →
    removeAllAux sqlGzChars fuel (ds ++ sqlGzChars) = ds := by
  intro ds
  induction ds with
  | nil =>
    intro fuel _ hf
    obtain ⟨n, rfl⟩ : ∃ n, fuel = n + 1 := ⟨fuel - 1, by omega⟩
    rw [List.nil_append,
      show removeAllAux sqlGzChars (n + 1) sqlGzChars
        = removeAllAux sqlGzChars n [] from rfl]
    exact removeAllAux_nil _ _
  | cons c ds ih =>
    intro fuel hne hf
    obtain ⟨n, rfl⟩ : ∃ n, fuel = n + 1 := ⟨fuel - 1, by omega⟩
    have hc : c ≠ '.' := hne c (List.mem_cons_self c ds)
    have hcond :
        ¬((c :: (ds ++ sqlGzChars)).take sqlGzChars.length = sqlGzChars) := by
      intro hEq
      exact hc (by simpa [sqlGzChars] using congrArg List.head? hEq)
    rw [List.cons_append, removeAllAux, if_neg hcond]
    exact congrArg (c :: ·)
      (ih n (fun x hx => hne x (List.mem_cons_of_mem c hx)) (by simpa using hf))

lemma removeAll_append_sqlGz {ds : List Char} (h : ∀ c ∈ ds, c ≠ '.') :
    removeAll sqlGzChars (ds ++ sqlGzChars) = ds := by
  unfold removeAll
  exact removeAllAux_sqlGz_append ds _ h (by simp [sqlGzChars])

lemma formatChars_length (d : Date) : (formatChars d).length = 8 := by
  simp [formatChars, pad4, pad2]

lemma data_gzFileName (db : String) (d : Date) :
    (gzFileName db d).data = db.data ++ '_' :: (formatChars d ++ sqlGzChars)
    := by
  show (db ++ "_" ++ formatYYYYMMDD d ++ ".sql.gz").data = _
  simp only [String.data_append]
  rw [show (formatYYYYMMDD d).data = formatChars d from rfl]
  simp [sqlGzChars]

/-- The sweeps' filename pipeline recovers exactly the `%Y%m%d` part of a
run-produced artifact name, for any database name. -/
lemma extractDateStr_gzFileName (db : String) (d : Date) :
    extractDateStr (gzFileName db d) = formatChars d := by
  have hgz : ∀ c ∈ sqlGzChars, c ≠ '_' := by decide
  have hsep : ∀ c ∈ formatChars d ++ sqlGzChars, c ≠ '_' := by
    intro c hc
    rcases List.mem_append.mp hc with h | h
    · exact formatChars_ne_underscore h
    · exact hgz c h
  unfold extractDateStr
  rw [data_gzFileName, splitLastSegment_append db.data hsep,
    removeAll_append_sqlGz (fun c hc => formatChars_ne_dot hc)]

/-- A run-produced artifact name parses back to its date. -/
lemma parseFileDate_gzFileName (db : String) {d : Date} (h : ValidDate d) :
    parseFileDate (gzFileName db d) = some d := by
  rw [parseFileDate, extractDateStr_gzFileName, strptime_formatChars h]

lemma dumpFileName_ne_gzFileName (db : String) (d d' : Date) :
    dumpFileName db d ≠ gzFileName db d' := by
  intro h
  have h' := congrArg (fun s => s.data.length) h
  simp [dumpFileName, gzFileName, String.data_append,
    show (formatYYYYMMDD d).data = formatChars d from rfl,
    show (formatYYYYMMDD d').data = formatChars d' from rfl,
    formatChars_length] at h'

/-! ## Lemmas: store algebra -/

lemma filter_ne_filter_eq (l : List (String × FKind)) (n : String) :
    (l.filter (fun p => p.1 ≠ n)).filter (fun p => p.1 = n) = [] := by
  rw [List.filter_filter, List.filter_eq_nil_iff]
  intro p _
  by_cases h : p.1 = n <;> simp [h]

lemma countName_setFile (l : List (String × FKind)) (n : String)
    (k : FKind) : countName (setFile l n k) n = 1 := by
  unfold countName setFile
  rw [List.filter_append, filter_ne_filter_eq]
  simp

lemma countName_delFile_ne {l : List (String × FKind)} {m n : String}
    (h : m ≠ n) : countName (delFile l n) m = countName l m := by
  unfold countName delFile
  rw [List.filter_filter]
  congr 1
  apply List.filter_congr
  intro p _
  by_cases hp : p.1 = m
  · have hpn : p.1 ≠ n := fun hc => h (hp.symm.trans hc)
    simp [hp, hpn, h]
  · simp [hp]

lemma countName_setFile_ne {l : List (String × FKind)} {m n : String}
    (k : FKind) (h : m ≠ n) :
    countName (setFile l n k) m = countName l m := by
  unfold countName setFile
  rw [List.filter_append, List.filter_filter]
  have h2 : List.filter (fun p => p.1 = m) [(n, k)] = [] := by
    simp [Ne.symm h]
  rw [h2, List.append_nil]
  congr 1
  apply List.filter_congr
  intro p _
  by_cases hp : p.1 = m
  · have hpn : p.1 ≠ n := fun hc => h (hp.symm.trans hc)
    simp [hp, hpn, h]
  · simp [hp]

lemma find?_fst_filter_ne (l : List (String × FKind)) (m n : String)
    (h : m ≠ n) :
    (l.filter (fun p => p.1 ≠ n)).find? (fun p => p.1 = m)
      = l.find? (fun p => p.1 = m) := by
  induction l with
  | nil => rfl
  | cons p l ih =>
    rw [List.filter_cons]
    by_cases hpn : p.1 = n
    · have c1 : (decide (p.1 ≠ n)) = false := by simp [hpn]
      have c2 : (decide (p.1 = m)) = false := by
        simp only [decide_eq_false_iff_not]
        exact fun hc => h (hc.symm.trans hpn)
      rw [c1, if_neg (by simp), ih, List.find?_cons, c2]
    · have c1 : (decide (p.1 ≠ n)) = true := by simp [hpn]
      rw [c1, if_pos rfl, List.find?_cons, List.find?_cons, ih]

lemma getKind_setFile (l : List (String × FKind)) (n : String) (k : FKind) :
    getKind (setFile l n k) n = some k := by
  unfold getKind setFile
  rw [List.find?_append]
  have h1 : (l.filter (fun p => p.1 ≠ n)).find? (fun p => p.1 = n) = none
      := by
    rw [List.find?_eq_none]
    intro p hp
    have := List.of_mem_filter hp
    simpa using this
  simp [h1]

lemma getKind_setFile_ne {l : List (String × FKind)} {m n : String}
    (k : FKind) (h : m ≠ n) :
    getKind (setFile l n k) m = getKind l m := by
  unfold getKind setFile
  rw [List.find?_append, find?_fst_filter_ne l m n h]
  have h2 : List.find? (fun p => p.1 = m) [(n, k)] = none := by
    simp [Ne.symm h]
  cases hf : l.find? (fun p => p.1 = m) <;> simp [h2, hf]

lemma getKind_delFile_self (l : List (String × FKind)) (n : String) :
    getKind (delFile l n) n = none := by
  unfold getKind delFile
  have h1 : (l.filter (fun p => p.1 ≠ n)).find? (fun p => p.1 = n) = none
      := by
    rw [List.find?_eq_none]
    intro p hp
    have := List.of_mem_filter hp
    simpa using this
  simp [h1]

lemma getKind_delFile_ne {l : List (String × FKind)} {m n : String}
    (h : m ≠ n) : getKind (delFile l n) m = getKind l m := by
  unfold getKind delFile
  rw [find?_fst_filter_ne l m n h]

lemma delFile_setFile_self (l : List (String × FKind)) (n : String)
    (k : FKind) : delFile (setFile l n k) n = delFile l n := by
  unfold delFile setFile
  rw [List.filter_append, List.filter_filter]
  have h2 : List.filter (fun p => p.1 ≠ n) [(n, k)] = [] := by simp
  rw [h2, List.append_nil]
  apply List.filter_congr
  intro p _
  by_cases hp : p.1 = n <;> simp [hp]

lemma setFile_setFile_self (l : List (String × FKind)) (n : String)
    (k k' : FKind) : setFile (setFile l n k) n k' = setFile l n k' := by
  unfold setFile
  rw [List.filter_append, List.filter_filter]
  have h2 : List.filter (fun p => p.1 ≠ n) [(n, k)] = [] := by simp
  rw [h2, List.append_nil]
  congr 1
  apply List.filter_congr
  intro p _
  by_cases hp : p.1 = n <;> simp [hp]

lemma countKey_putKey (remote : List String) (k : String) :
    countKey (putKey remote k) k = 1 := by
  unfold countKey putKey
  rw [List.filter_append, List.filter_filter]
  have h1 : remote.filter (fun x => decide (x = k) && decide (x ≠ k)) = []
      := by
    rw [List.filter_eq_nil_iff]
    intro x _
    by_cases h : x = k <;> simp [h]
  rw [h1]
  simp

lemma mem_putKey_of_mem {remote : List String} {x : String} (k : String)
    (h : x ∈ remote) : x ∈ putKey remote k := by
  unfold putKey
  by_cases hx : x = k
  · simp [hx]
  · exact List.mem_append_left _ (List.mem_filter.mpr ⟨h, by simp [hx]⟩)

/-! ## Lemmas: the local retention sweep -/

/-- The sweep raises nowhere iff every glob match parses. -/
lemma clean_local_go_err_eq_none {keep : Nat} {now : DateTime} :
    ∀ (fs : List String) (files : List (String × FKind)),
    (clean_local_go keep now fs files).2 = none ↔
      ∀ f ∈ fs, parseFileDate f ≠ none := by
  intro fs
  induction fs with
  | nil => simp [clean_local_go]
  | cons f fs ih =>
    intro files
    cases hp : parseFileDate f with
    | none => simp [clean_local_go, hp]
    | some d =>
      by_cases he : deleteEligible keep now d
      · simp only [clean_local_go, hp, if_pos he, ih]
        constructor
        · intro h g hg
          rcases List.mem_cons.mp hg with rfl | hg
          · simp [hp]
          · exact h g hg
        · intro h g hg
          exact h g (List.mem_cons_of_mem f hg)
      · simp only [clean_local_go, hp, if_neg he, ih]
        constructor
        · intro h g hg
          rcases List.mem_cons.mp hg with rfl | hg
          · simp [hp]
          · exact h g hg
        · intro h g hg
          exact h g (List.mem_cons_of_mem f hg)

/-- Entries whose name the sweep never deletes keep their multiplicity, even
when the sweep aborts partway. -/
lemma clean_local_go_countName {keep : Nat} {now : DateTime} {n : String} :
    ∀ (fs : List String) (files : List (String × FKind)),
    (∀ f ∈ fs, f = n → localDeletes keep now f = false) →
    countName (clean_local_go keep now fs files).1 n = countName files n := by
  intro fs
  induction fs with
  | nil => intro files _; rfl
  | cons f fs ih =>
    intro files h
    cases hp : parseFileDate f with
    | none => simp [clean_local_go, hp]
    | some d =>
      by_cases he : deleteEligible keep now d
      · have hfn : f ≠ n := by
          intro rfl
          have := h f (List.mem_cons_self f fs) rfl
          rw [localDeletes, hp] at this
          exact absurd this (by simp [he])
        rw [clean_local_go, hp]
        simp only [if_pos he]
        rw [ih _ (fun g hg => h g (List.mem_cons_of_mem f hg)),
          countName_delFile_ne (Ne.symm hfn)]
      · rw [clean_local_go, hp]
        simp only [if_neg he]
        exact ih _ (fun g hg => h g (List.mem_cons_of_mem f hg))

/-- Same preservation statement for the file's contents. -/
lemma clean_local_go_getKind {keep : Nat} {now : DateTime} {n : String} :
    ∀ (fs : List String) (files : List (String × FKind)),
    (∀ f ∈ fs, f = n → localDeletes keep now f = false) →
    getKind (clean_local_go keep now fs files).1 n = getKind files n := by
  intro fs
  induction fs with
  | nil => intro files _; rfl
  | cons f fs ih =>
    intro files h
    cases hp : parseFileDate f with
    | none => simp [clean_local_go, hp]
    | some d =>
      by_cases he : deleteEligible keep now d
      · have hfn : f ≠ n := by
          intro rfl
          have := h f (List.mem_cons_self f fs) rfl
          rw [localDeletes, hp] at this
          exact absurd this (by simp [he])
        rw [clean_local_go, hp]
        simp only [if_pos he]
        rw [ih _ (fun g hg => h g (List.mem_cons_of_mem f hg)),
          getKind_delFile_ne (Ne.symm hfn)]
      · rw [clean_local_go, hp]
        simp only [if_neg he]
        exact ih _ (fun g hg => h g (List.mem_cons_of_mem f hg))

/-- When every file in the worklist parses, the sweep is exactly a filter:
an entry survives iff its name is not a deletable member of the worklist. -/
lemma clean_local_go_eq_filter {keep : Nat} {now : DateTime} :
    ∀ (fs : List String) (files : List (String × FKind)),
    (∀ f ∈ fs, parseFileDate f ≠ none) →
    clean_local_go keep now fs files =
      (files.filter
        (fun p => !(decide (p.1 ∈ fs) && localDeletes keep now p.1)), none)
    := by
  intro fs
  induction fs with
  | nil =>
    intro files _
    simp [clean_local_go]
  | cons f fs ih =>
    intro files h
    cases hp : parseFileDate f with
    | none =>
      exact absurd hp (h f (List.mem_cons_self f fs))
    | some d =>
      have hrest : ∀ g ∈ fs, parseFileDate g ≠ none :=
        fun g hg => h g (List.mem_cons_of_mem f hg)
      by_cases he : deleteEligible keep now d
      · rw [clean_local_go, hp]
        simp only [if_pos he]
        rw [ih _ hrest]
        congr 1
        unfold delFile
        rw [List.filter_filter]
        apply List.filter_congr
        intro p _
        by_cases hpf : p.1 = f
        · simp [hpf, localDeletes, hp, he]
        · by_cases hmem : p.1 ∈ fs <;> simp [hpf, hmem]
      · rw [clean_local_go, hp]
        simp only [if_neg he]
        rw [ih _ hrest]
        congr 1
        apply List.filter_congr
        intro p _
        by_cases hpf : p.1 = f
        · simp [hpf, localDeletes, hp, he]
        · by_cases hmem : p.1 ∈ fs <;> simp [hpf, hmem]

/-- An artifact carrying today's date is never eligible for deletion while
the retention window is at least one day and the clock is a real time of
day. -/
lemma today_not_eligible {keep : Nat} {now : DateTime} (hk : 1 ≤ keep)
    (hu : now.usec < usecPerDay) :
    deleteEligible keep now now.date = false := by
  unfold deleteEligible midnightUsec DateTime.toUsec
  simp only [decide_eq_false_iff_not, not_lt]
  have h1 : (now.usec : Int) < (usecPerDay : Int) := by exact_mod_cast hu
  have h2 : (usecPerDay : Int) ≤ (keep : Int) * (usecPerDay : Int) := by
    have hk' : (1 : Int) ≤ (keep : Int) := by exact_mod_cast hk
    nlinarith [hk']
  linarith

/-! ## Lemmas: the remote retention sweep -/

/-- Generic fold characterization: sweeping a worklist `l` over store `s`
removes exactly the eligible members of `l` and records them, in order. -/
lemma clean_oss_foldl (pre : String) (keep : Nat) (now : DateTime) :
    ∀ (l : List String) (s dl : List String),
    l.foldl
      (fun acc key =>
        if ossKeyEligible pre keep now key then
          (acc.1.filter (fun x => x ≠ key), acc.2 ++ [key])
        else acc)
      (s, dl)
    = (s.filter
        (fun x => !(decide (x ∈ l) && ossKeyEligible pre keep now x)),
       dl ++ l.filter (fun x => ossKeyEligible pre keep now x)) := by
  intro l
  induction l with
  | nil =>
    intro s dl
    simp
  | cons k l ih =>
    intro s dl
    by_cases hk : ossKeyEligible pre keep now k
    · rw [List.foldl_cons]
      simp only [if_pos hk]
      rw [ih, Prod.mk.injEq]
      refine ⟨?_, ?_⟩
      · rw [List.filter_filter]
        apply List.filter_congr
        intro x _
        by_cases hxk : x = k
        · simp [hxk, hk]
        · by_cases hxl : x ∈ l <;> simp [hxk, hxl]
      · rw [List.filter_cons_of_pos (by simpa using hk), List.append_assoc]
        rfl
    · rw [List.foldl_cons]
      simp only [if_neg hk]
      rw [ih, Prod.mk.injEq]
      refine ⟨?_, ?_⟩
      · apply List.filter_congr
        intro x _
        by_cases hxk : x = k
        · simp [hxk, hk]
        · by_cases hxl : x ∈ l <;> simp [hxk, hxl]
      · rw [List.filter_cons_of_neg (by simpa using hk)]

/-- The sweep `clean_oss_backups` deletes exactly the eligible keys. -/
lemma clean_oss_backups_eq (pre : String) (keep : Nat) (now : DateTime)
    (remote : List String) :
    clean_oss_backups pre keep now remote =
      (remote.filter (fun x => !(ossKeyEligible pre keep now x)),
       remote.filter (fun x => ossKeyEligible pre keep now x)) := by
  unfold clean_oss_backups
  rw [clean_oss_foldl, Prod.mk.injEq]
  refine ⟨?_, ?_⟩
  · apply List.filter_congr
    intro x hx
    simp [hx]
  · simp

/-! ## Lemmas: orchestrator paths -/

/-- The successful dump-and-compress path, as one equation. -/
lemma run_mysqldump_success {db today : String} {fl : Faults} {st : St}
    (h1 : fl.dumpExitCode = 0) (h2 : fl.compressFails = false) :
    run_mysqldump db today fl st =
      { ok := true,
        st :=
          { st with
            files :=
              delFile
                (setFile
                  (setFile st.files (db ++ "_" ++ today ++ ".sql") .raw)
                  (db ++ "_" ++ today ++ ".sql.gz") .gzFull)
                (db ++ "_" ++ today ++ ".sql") },
        evs := [.dumpOk, .gzOpened, .gzClosed, .rawRemoved] } := by
  unfold run_mysqldump
  rw [if_neg (by simp [h1]), if_neg (by simp [h2]), setFile_setFile_self]

/-- The dump-failure path, as one equation. -/
lemma run_mysqldump_dumpfail {db today : String} {fl : Faults} {st : St}
    (h1 : fl.dumpExitCode ≠ 0) :
    run_mysqldump db today fl st =
      { ok := false,
        st :=
          { st with
            files := delFile st.files (db ++ "_" ++ today ++ ".sql") },
        evs := [.dumpFailed, .rawRemoved] } := by
  unfold run_mysqldump
  rw [if_pos h1, delFile_setFile_self]

/-- The compression-failure path, as one equation. -/
lemma run_mysqldump_compressfail {db today : String} {fl : Faults} {st : St}
    (h1 : fl.dumpExitCode = 0) (h2 : fl.compressFails = true) :
    run_mysqldump db today fl st =
      { ok := false,
        st :=
          { st with
            files :=
              delFile
                (setFile
                  (setFile st.files (db ++ "_" ++ today ++ ".sql") .raw)
                  (db ++ "_" ++ today ++ ".sql.gz") .gzPart)
                (db ++ "_" ++ today ++ ".sql") },
        evs := [.dumpOk, .gzOpened, .compressFailed, .rawRemoved] } := by
  unfold run_mysqldump
  rw [if_neg (by simp [h1]), if_pos h2]

/-- A run that reports success had no injected faults. -/
lemma execute_ok_faults {cfg : Config} {fl : Faults} {now : DateTime}
    {st : St} (h : (execute cfg fl now st).ok = true) :
    fl.dumpExitCode = 0 ∧ fl.compressFails = false ∧ fl.uploadFails = false
    := by
  by_cases h1 : fl.dumpExitCode = 0
  · by_cases h2 : fl.compressFails
    · rw [execute, run_mysqldump_compressfail h1 h2] at h
      simp at h
    · by_cases h3 : fl.uploadFails
      · rw [execute,
          run_mysqldump_success h1 (Bool.not_eq_true _ ▸ h2)] at h
        simp [h3] at h
      · exact ⟨h1, Bool.not_eq_true _ ▸ h2, Bool.not_eq_true _ ▸ h3⟩
  · rw [execute, run_mysqldump_dumpfail h1] at h
    simp at h

lemma rawName_ne_gzName (db today : String) :
    db ++ "_" ++ today ++ ".sql" ≠ db ++ "_" ++ today ++ ".sql.gz" := by
  intro h
  have h' := congrArg (fun s => s.data.length) h
  simp [String.data_append] at h'

/-- Run `execute` when the dump exits non-zero. -/
lemma execute_dumpfail_eq {cfg : Config} {fl : Faults} {now : DateTime}
    {st : St} (h : fl.dumpExitCode ≠ 0) :
    execute cfg fl now st =
      { ok := false,
        st :=
          { st with
            files :=
              delFile st.files (dumpFileName cfg.mysql_database now.date) },
        evs := [.dumpFailed, .rawRemoved] } := by
  rw [execute, run_mysqldump_dumpfail h]
  simp [dumpFileName]

/-- Run `execute` when compression fails partway. -/
lemma execute_compressfail_eq {cfg : Config} {fl : Faults} {now : DateTime}
    {st : St} (h1 : fl.dumpExitCode = 0) (h2 : fl.compressFails = true) :
    execute cfg fl now st =
      { ok := false,
        st :=
          { st with
            files :=
              delFile
                (setFile
                  (setFile st.files (dumpFileName cfg.mysql_database now.date)
                    .raw)
                  (gzFileName cfg.mysql_database now.date) .gzPart)
                (dumpFileName cfg.mysql_database now.date) },
        evs := [.dumpOk, .gzOpened, .compressFailed, .rawRemoved] } := by
  rw [execute, run_mysqldump_compressfail h1 h2]
  simp [dumpFileName, gzFileName]

/-- Run `execute` when the upload raises after a successful compression. -/
lemma execute_uploadfail_eq {cfg : Config} {fl : Faults} {now : DateTime}
    {st : St} (h1 : fl.dumpExitCode = 0) (h2 : fl.compressFails = false)
    (h3 : fl.uploadFails = true) :
    execute cfg fl now st =
      { ok := false,
        st :=
          { st with
            files :=
              delFile
                (setFile
                  (setFile st.files (dumpFileName cfg.mysql_database now.date)
                    .raw)
                  (gzFileName cfg.mysql_database now.date) .gzFull)
                (dumpFileName cfg.mysql_database now.date) },
        evs := [.dumpOk, .gzOpened, .gzClosed, .rawRemoved, .uploadFailed] }
    := by
  rw [execute, run_mysqldump_success h1 h2]
  simp [h3, dumpFileName, gzFileName]

/-- Run `execute` when no external operation fails: upload, then the local
sweep. -/
lemma execute_success_eq {cfg : Config} {fl : Faults} {now : DateTime}
    {st : St} (h1 : fl.dumpExitCode = 0) (h2 : fl.compressFails = false)
    (h3 : fl.uploadFails = false) :
    execute cfg fl now st =
      { ok :=
          decide ((clean_local_backups cfg.keep_local_days now
            (delFile
              (setFile
                (setFile st.files (dumpFileName cfg.mysql_database now.date)
                  .raw)
                (gzFileName cfg.mysql_database now.date) .gzFull)
              (dumpFileName cfg.mysql_database now.date))).2 = none),
        st :=
          { files :=
              (clean_local_backups cfg.keep_local_days now
                (delFile
                  (setFile
                    (setFile st.files
                      (dumpFileName cfg.mysql_database now.date) .raw)
                    (gzFileName cfg.mysql_database now.date) .gzFull)
                  (dumpFileName cfg.mysql_database now.date))).1,
            remote :=
              putKey st.remote
                (ossObjectKey cfg.oss_prefix cfg.mysql_database now.date) },
        evs := [.dumpOk, .gzOpened, .gzClosed, .rawRemoved, .uploadOk,
          .localCleanupRan] } := by
  rw [execute, run_mysqldump_success h1 h2]
  simp [h3, ossObjectKey, dumpFileName, gzFileName]

/-! ## Claim theorems -/

/-- C9: The remote cleanup sweep is idempotent: running `clean_oss_backups`
again on the store it produced, with the same `now` and no new artifacts,
leaves the store unchanged and performs no deletions (and, being a total
function whose per-key parsing errors are caught, it raises no error). -/
theorem clean_oss_idempotent (pre : String) (keep : Nat) (now : DateTime)
    (remote : List String) :
    clean_oss_backups pre keep now (clean_oss_backups pre keep now remote).1
      = ((clean_oss_backups pre keep now remote).1, []) := by
  rw [clean_oss_backups_eq, clean_oss_backups_eq, Prod.mk.injEq]
  refine ⟨?_, ?_⟩
  · rw [List.filter_filter]
    apply List.filter_congr
    intro x _
    cases ossKeyEligible pre keep now x <;> rfl
  · rw [List.filter_filter]
    have : ∀ x ∈ remote,
        (ossKeyEligible pre keep now x && !ossKeyEligible pre keep now x)
          = false := by
      intro x _
      cases ossKeyEligible pre keep now x <;> rfl
    rw [List.filter_congr this, List.filter_false]

/-- C8: The default run sequence never deletes a remote object: whatever
faults occur, every key present before `execute` is still present after it,
and the remote store is either untouched or extended by the uploaded key.
The remote sweep is only the separate `clean_oss_backups` operation. -/
theorem execute_never_deletes_remote (cfg : Config) (fl : Faults)
    (now : DateTime) (st : St) (x : String) (hx : x ∈ st.remote) :
    x ∈ (execute cfg fl now st).st.remote ∧
    ((execute cfg fl now st).st.remote = st.remote ∨
      (execute cfg fl now st).st.remote =
        putKey st.remote
          (ossObjectKey cfg.oss_prefix cfg.mysql_database now.date)) := by
  by_cases h1 : fl.dumpExitCode = 0
  · by_cases h2 : fl.compressFails
    · rw [execute_compressfail_eq h1 h2]
      exact ⟨hx, Or.inl rfl⟩
    · by_cases h3 : fl.uploadFails
      · rw [execute_uploadfail_eq h1 (Bool.not_eq_true _ ▸ h2) h3]
        exact ⟨hx, Or.inl rfl⟩
      · rw [execute_success_eq h1 (Bool.not_eq_true _ ▸ h2)
          (Bool.not_eq_true _ ▸ h3)]
        exact ⟨mem_putKey_of_mem _ hx, Or.inr rfl⟩
  · rw [execute_dumpfail_eq h1]
    exact ⟨hx, Or.inl rfl⟩

/-- C8 witness. -/
theorem execute_never_deletes_remote_witness :
    "pre/old.sql.gz" ∈
      (execute ⟨"db", 3, "pre/", 30⟩ noFaults ⟨⟨2024, 3, 10⟩, 0⟩
        ⟨[], ["pre/old.sql.gz"]⟩).st.remote :=
  (execute_never_deletes_remote ⟨"db", 3, "pre/", 30⟩ noFaults
    ⟨⟨2024, 3, 10⟩, 0⟩ ⟨[], ["pre/old.sql.gz"]⟩ "pre/old.sql.gz"
    (by decide)).1

/-- C4: If the dump process exits non-zero, the run reports failure, the
partially written raw dump file is removed, today's compressed file is not
created (the directory's entry under that name is exactly what it was
before the run), no upload happens, and the remote store is untouched. -/
theorem dump_failure_no_artifact (cfg : Config) (fl : Faults)
    (now : DateTime) (st : St) (h : fl.dumpExitCode ≠ 0) :
    (execute cfg fl now st).ok = false ∧
    getKind (execute cfg fl now st).st.files
      (dumpFileName cfg.mysql_database now.date) = none ∧
    getKind (execute cfg fl now st).st.files
      (gzFileName cfg.mysql_database now.date)
      = getKind st.files (gzFileName cfg.mysql_database now.date) ∧
    (execute cfg fl now st).st.remote = st.remote ∧
    Ev.uploadOk ∉ (execute cfg fl now st).evs ∧
    Ev.uploadFailed ∉ (execute cfg fl now st).evs := by
  rw [execute_dumpfail_eq h]
  refine ⟨rfl, getKind_delFile_self _ _, ?_, rfl, by simp, by simp⟩
  exact getKind_delFile_ne
    (Ne.symm (dumpFileName_ne_gzFileName cfg.mysql_database _ _))

/-- C4 witness. -/
theorem dump_failure_no_artifact_witness :
    (execute ⟨"db", 3, "pre/", 30⟩ ⟨1, false, false⟩ ⟨⟨2024, 3, 10⟩, 0⟩
      ⟨[], []⟩).ok = false ∧
    getKind (execute ⟨"db", 3, "pre/", 30⟩ ⟨1, false, false⟩
      ⟨⟨2024, 3, 10⟩, 0⟩ ⟨[], []⟩).st.files
      (dumpFileName "db" ⟨2024, 3, 10⟩) = none ∧
    getKind (execute ⟨"db", 3, "pre/", 30⟩ ⟨1, false, false⟩
      ⟨⟨2024, 3, 10⟩, 0⟩ ⟨[], []⟩).st.files
      (gzFileName "db" ⟨2024, 3, 10⟩)
      = getKind ([] : List (String × FKind)) (gzFileName "db" ⟨2024, 3, 10⟩)
      ∧
    (execute ⟨"db", 3, "pre/", 30⟩ ⟨1, false, false⟩ ⟨⟨2024, 3, 10⟩, 0⟩
      ⟨[], []⟩).st.remote = [] ∧
    Ev.uploadOk ∉ (execute ⟨"db", 3, "pre/", 30⟩ ⟨1, false, false⟩
      ⟨⟨2024, 3, 10⟩, 0⟩ ⟨[], []⟩).evs ∧
    Ev.uploadFailed ∉ (execute ⟨"db", 3, "pre/", 30⟩ ⟨1, false, false⟩
      ⟨⟨2024, 3, 10⟩, 0⟩ ⟨[], []⟩).evs :=
  dump_failure_no_artifact ⟨"db", 3, "pre/", 30⟩ ⟨1, false, false⟩
    ⟨⟨2024, 3, 10⟩, 0⟩ ⟨[], []⟩ (by decide)

/-- C10: If compression fails partway after a successful dump, the backup
step reports failure (raises), the raw dump file has been deleted by the
error handler, and a partially written `.sql.gz` file for today remains in
the local directory. -/
theorem compress_failure_removes_raw_leaves_gzPart (db today : String)
    (fl : Faults) (st : St) (h1 : fl.dumpExitCode = 0)
    (h2 : fl.compressFails = true) :
    (run_mysqldump db today fl st).ok = false ∧
    getKind (run_mysqldump db today fl st).st.files
      (db ++ "_" ++ today ++ ".sql") = none ∧
    getKind (run_mysqldump db today fl st).st.files
      (db ++ "_" ++ today ++ ".sql.gz") = some .gzPart := by
  rw [run_mysqldump_compressfail h1 h2]
  refine ⟨rfl, getKind_delFile_self _ _, ?_⟩
  rw [getKind_delFile_ne (Ne.symm (rawName_ne_gzName db today)),
    getKind_setFile]

/-- C10 witness. -/
theorem compress_failure_removes_raw_leaves_gzPart_witness :
    (run_mysqldump "db" "20240310" ⟨0, true, false⟩ ⟨[], []⟩).ok = false ∧
    getKind (run_mysqldump "db" "20240310" ⟨0, true, false⟩
      ⟨[], []⟩).st.files ("db" ++ "_" ++ "20240310" ++ ".sql") = none ∧
    getKind (run_mysqldump "db" "20240310" ⟨0, true, false⟩
      ⟨[], []⟩).st.files ("db" ++ "_" ++ "20240310" ++ ".sql.gz")
      = some .gzPart :=
  compress_failure_removes_raw_leaves_gzPart "db" "20240310"
    ⟨0, true, false⟩ ⟨[], []⟩ rfl rfl

/-- C1 counterexample: after an upload failure following a successful
compression, `clean_local_backups` is never invoked — here a four-years-old
artifact that the sweep would certainly have deleted survives the run and
the cleanup event is absent from the trace, refuting "local cleanup still
runs". -/
theorem upload_failure_cleanup_skipped_cex :
    Ev.localCleanupRan ∉
      (execute ⟨"db", 3, "pre/", 30⟩ ⟨0, false, true⟩ ⟨⟨2024, 3, 10⟩, 0⟩
        ⟨[("db_20200101.sql.gz", .other)], []⟩).evs ∧
    ("db_20200101.sql.gz", FKind.other) ∈
      (execute ⟨"db", 3, "pre/", 30⟩ ⟨0, false, true⟩ ⟨⟨2024, 3, 10⟩, 0⟩
        ⟨[("db_20200101.sql.gz", .other)], []⟩).st.files := by
  decide

/-- C1 (amended): if the upload raises after a successful local
compression, the run reports failure and today's compressed file still
exists locally (fully written), but the local retention sweep is *not*
executed — the exception short-circuits straight to the failure handler. -/
theorem upload_failure_keeps_file_skips_cleanup (cfg : Config) (fl : Faults)
    (now : DateTime) (st : St) (h1 : fl.dumpExitCode = 0)
    (h2 : fl.compressFails = false) (h3 : fl.uploadFails = true) :
    (execute cfg fl now st).ok = false ∧
    getKind (execute cfg fl now st).st.files
      (gzFileName cfg.mysql_database now.date) = some .gzFull ∧
    Ev.localCleanupRan ∉ (execute cfg fl now st).evs := by
  rw [execute_uploadfail_eq h1 h2 h3]
  refine ⟨rfl, ?_, by simp⟩
  rw [getKind_delFile_ne
    (Ne.symm (dumpFileName_ne_gzFileName cfg.mysql_database _ _)),
    getKind_setFile]

/-- C1 witness. -/
theorem upload_failure_keeps_file_skips_cleanup_witness :
    (execute ⟨"db", 3, "pre/", 30⟩ ⟨0, false, true⟩ ⟨⟨2024, 3, 10⟩, 0⟩
      ⟨[], []⟩).ok = false ∧
    getKind (execute ⟨"db", 3, "pre/", 30⟩ ⟨0, false, true⟩
      ⟨⟨2024, 3, 10⟩, 0⟩ ⟨[], []⟩).st.files
      (gzFileName "db" ⟨2024, 3, 10⟩) = some .gzFull ∧
    Ev.localCleanupRan ∉ (execute ⟨"db", 3, "pre/", 30⟩ ⟨0, false, true⟩
      ⟨⟨2024, 3, 10⟩, 0⟩ ⟨[], []⟩).evs :=
  upload_failure_keeps_file_skips_cleanup ⟨"db", 3, "pre/", 30⟩
    ⟨0, false, true⟩ ⟨⟨2024, 3, 10⟩, 0⟩ ⟨[], []⟩ rfl rfl rfl

/-- C6 counterexample: when compression fails partway, the error handler
removes the raw dump file even though the compressed file was never fully
written and closed — so "the raw dump file is removed only after the
compressed file has been fully written and closed" is false of this
execution of the backup step. -/
theorem raw_removed_without_gz_closed_cex :
    Ev.rawRemoved ∈
      (run_mysqldump "db" "20240310" ⟨0, true, false⟩ ⟨[], []⟩).evs ∧
    Ev.gzClosed ∉
      (run_mysqldump "db" "20240310" ⟨0, true, false⟩ ⟨[], []⟩).evs := by
  decide

/-- C6 (amended): on every execution of the backup step in which
compression succeeds, the raw file's removal happens only after the
compressed file is fully written and closed (the trace is exactly dump,
gz-open, gz-close, raw-remove, in that order); and if compression fails
partway, the step raises instead of returning, so the run never reports a
valid compressed artifact — though the error handler then also removes the
raw file. -/
theorem raw_removed_after_gz_closed (db today : String) (fl : Faults)
    (st : St) :
    ((run_mysqldump db today fl st).ok = true →
      (run_mysqldump db today fl st).evs
        = [.dumpOk, .gzOpened, .gzClosed, .rawRemoved]) ∧
    (fl.compressFails = true → (run_mysqldump db today fl st).ok = false)
    := by
  by_cases h1 : fl.dumpExitCode = 0
  · by_cases h2 : fl.compressFails
    · rw [run_mysqldump_compressfail h1 h2]
      exact ⟨fun h => absurd h (by simp), fun _ => rfl⟩
    · rw [run_mysqldump_success h1 (Bool.not_eq_true _ ▸ h2)]
      exact ⟨fun _ => rfl, fun h => absurd h h2⟩
  · rw [run_mysqldump_dumpfail h1]
    exact ⟨fun h => absurd h (by simp), fun _ => rfl⟩

/-- C6 witness: the success-path trace on a no-fault run, and the failure
report on a compression-fault run. -/
theorem raw_removed_after_gz_closed_witness :
    (run_mysqldump "db" "20240310" noFaults ⟨[], []⟩).evs
      = [.dumpOk, .gzOpened, .gzClosed, .rawRemoved] ∧
    (run_mysqldump "db" "20240310" ⟨0, true, false⟩ ⟨[], []⟩).ok = false :=
  ⟨(raw_removed_after_gz_closed "db" "20240310" noFaults ⟨[], []⟩).1
      (by decide),
   (raw_removed_after_gz_closed "db" "20240310" ⟨0, true, false⟩
      ⟨[], []⟩).2 rfl⟩

/-- C2 counterexample: with `keep_local_days = 3` and today = 2024-03-10,
an artifact dated 2024-03-07 — exactly on the claimed retention boundary —
is deleted when the sweep runs one microsecond after midnight, because the
cutoff `datetime.now() - timedelta(days=3)` carries the time of day.  This
refutes "one dated 2024-03-07 is retained, for any time of day at which the
sweep runs". -/
theorem clean_local_boundary_deleted_cex :
    clean_local_backups 3 ⟨⟨2024, 3, 10⟩, 1⟩
      [("db_20240307.sql.gz", FKind.gzFull)] = ([], none) := by
  decide

/-- C2 (amended): provided every glob match parses (otherwise the sweep
raises), the local sweep deletes a stored artifact iff the midnight
`datetime` of its parsed date is strictly before the sweep's full current
`datetime` minus `keep_local_days` days.  Hence an artifact dated exactly
`today - keep_local_days` is retained only when the sweep runs exactly at
midnight and is deleted at any later time of day; strictly older dates are
always deleted, newer ones always retained. -/
theorem clean_local_deletes_iff (keep : Nat) (now : DateTime)
    (files : List (String × FKind)) (f : String) (d : Date)
    (hmem : f ∈ files.map Prod.fst) (hglob : globMatch f = true)
    (hparse : parseFileDate f = some d)
    (hall : ∀ g ∈ globNames files, parseFileDate g ≠ none) :
    0 < countName files f ∧
    countName (clean_local_backups keep now files).1 f
      = (if deleteEligible keep now d then 0 else countName files f) := by
  constructor
  · obtain ⟨p, hp, hpf⟩ := List.mem_map.mp hmem
    have hmemf : p ∈ files.filter (fun q => q.1 = f) :=
      List.mem_filter.mpr ⟨hp, by simp [hpf]⟩
    exact List.length_pos.mpr (List.ne_nil_of_mem hmemf)
  · rw [clean_local_backups, clean_local_go_eq_filter _ _ hall]
    unfold countName
    rw [List.filter_filter]
    have hfg : f ∈ globNames files :=
      List.mem_filter.mpr ⟨hmem, by simp [hglob]⟩
    have hcong : ∀ p ∈ files,
        (decide (p.1 = f) &&
          !(decide (p.1 ∈ globNames files) && localDeletes keep now p.1))
        = (decide (p.1 = f) && !(deleteEligible keep now d)) := by
      intro p _
      by_cases hpf : p.1 = f
      · simp [hpf, hfg, localDeletes, hparse]
      · simp [hpf]
    rw [List.filter_congr hcong]
    by_cases he : deleteEligible keep now d
    · simp [he]
    · simp [he, countName]

/-- C2 witness: an artifact dated 2024-03-06 under a 3-day window on
2024-03-10 falls on the deleted side of the boundary. -/
theorem clean_local_deletes_iff_witness :
    0 < countName [("db_20240306.sql.gz", FKind.gzFull)]
      "db_20240306.sql.gz" ∧
    countName (clean_local_backups 3 ⟨⟨2024, 3, 10⟩, 1⟩
        [("db_20240306.sql.gz", FKind.gzFull)]).1 "db_20240306.sql.gz"
      = (if deleteEligible 3 ⟨⟨2024, 3, 10⟩, 1⟩ ⟨2024, 3, 6⟩ then 0
         else countName [("db_20240306.sql.gz", FKind.gzFull)]
           "db_20240306.sql.gz") :=
  clean_local_deletes_iff 3 ⟨⟨2024, 3, 10⟩, 1⟩
    [("db_20240306.sql.gz", FKind.gzFull)] "db_20240306.sql.gz"
    ⟨2024, 3, 6⟩ (by decide) (by decide) (by decide) (by decide)

/-- C3 counterexample: a `*.sql.gz` file whose date portion does not parse
makes `strptime` raise outside any per-entry handler, so the local sweep
aborts — and a run that reaches the sweep fails because of it, refuting
"neither sweep ever aborts the run because of a malformed filename". -/
theorem malformed_name_aborts_run_cex :
    (clean_local_backups 3 ⟨⟨2024, 3, 10⟩, 0⟩
      [("backup.sql.gz", FKind.other)]).2 = some "backup.sql.gz" ∧
    (execute ⟨"db", 3, "pre/", 30⟩ noFaults ⟨⟨2024, 3, 10⟩, 0⟩
      ⟨[("backup.sql.gz", FKind.other)], []⟩).ok = false := by
  decide

/-- C3 (amended): the two sweeps treat malformed names differently.  The
remote sweep catches per-key parse errors: an unparsable key is skipped —
never deleted and never aborting the sweep.  The local sweep skips names
not matching `*.sql.gz` silently, but its `strptime` call sits outside any
`try`, so it completes without raising iff every glob match parses; one
unparsable `*.sql.gz` name aborts the sweep (and with it the run). -/
theorem malformed_names_remote_skip_local_raise (pre : String) (keep : Nat)
    (now : DateTime) (remote : List String) (key : String)
    (files : List (String × FKind)) (hkey : key ∈ remote)
    (hbad : strptimeYYYYMMDD (removeAll sqlGzChars
      (splitLastSegment '_' (splitLastSegment '/' key.data))) = none) :
    key ∈ (clean_oss_backups pre keep now remote).1 ∧
    key ∉ (clean_oss_backups pre keep now remote).2 ∧
    ((clean_local_backups keep now files).2 = none ↔
      ∀ g ∈ globNames files, parseFileDate g ≠ none) := by
  have helig : ossKeyEligible pre keep now key = false := by
    unfold ossKeyEligible
    rw [hbad]
    simp
  rw [clean_oss_backups_eq]
  refine ⟨?_, ?_, clean_local_go_err_eq_none _ _⟩
  · exact List.mem_filter.mpr ⟨hkey, by simp [helig]⟩
  · intro hmem
    have hm := List.mem_filter.mp hmem
    rw [helig] at hm
    exact absurd hm.2 (by simp)

/-- C3 witness: `notes.txt` under the prefix survives the remote sweep
untouched, and a local directory whose only glob match is malformed makes
the local sweep raise. -/
theorem malformed_names_remote_skip_local_raise_witness :
    "pre/notes.txt" ∈
      (clean_oss_backups "pre/" 30 ⟨⟨2024, 3, 10⟩, 0⟩ ["pre/notes.txt"]).1 ∧
    "pre/notes.txt" ∉
      (clean_oss_backups "pre/" 30 ⟨⟨2024, 3, 10⟩, 0⟩ ["pre/notes.txt"]).2 ∧
    ((clean_local_backups 30 ⟨⟨2024, 3, 10⟩, 0⟩
        [("backup.sql.gz", FKind.other)]).2 = none ↔
      ∀ g ∈ globNames [("backup.sql.gz", FKind.other)],
        parseFileDate g ≠ none) :=
  malformed_names_remote_skip_local_raise "pre/" 30 ⟨⟨2024, 3, 10⟩, 0⟩
    ["pre/notes.txt"] "pre/notes.txt" [("backup.sql.gz", FKind.other)]
    (by decide) (by decide)

lemma localDeletes_gzFileName {keep : Nat} {now : DateTime} (db : String)
    (hk : 1 ≤ keep) (hu : now.usec < usecPerDay) (hv : ValidDate now.date) :
    localDeletes keep now (gzFileName db now.date) = false := by
  unfold localDeletes
  rw [parseFileDate_gzFileName db hv]
  exact today_not_eligible hk hu

lemma execute_success_files {cfg : Config} {fl : Faults} {now : DateTime}
    {st : St} (h1 : fl.dumpExitCode = 0) (h2 : fl.compressFails = false)
    (h3 : fl.uploadFails = false) :
    (execute cfg fl now st).st.files =
      (clean_local_backups cfg.keep_local_days now
        (delFile
          (setFile
            (setFile st.files (dumpFileName cfg.mysql_database now.date)
              .raw)
            (gzFileName cfg.mysql_database now.date) .gzFull)
          (dumpFileName cfg.mysql_database now.date))).1 := by
  rw [execute_success_eq h1 h2 h3]

lemma execute_success_remote {cfg : Config} {fl : Faults} {now : DateTime}
    {st : St} (h1 : fl.dumpExitCode = 0) (h2 : fl.compressFails = false)
    (h3 : fl.uploadFails = false) :
    (execute cfg fl now st).st.remote =
      putKey st.remote
        (ossObjectKey cfg.oss_prefix cfg.mysql_database now.date) := by
  rw [execute_success_eq h1 h2 h3]

/-- Any single successful run leaves exactly one local file and exactly one
remote object under today's artifact name and key. -/
lemma execute_ok_counts {cfg : Config} {fl : Faults} {now : DateTime}
    {st : St} (hk : 1 ≤ cfg.keep_local_days) (hu : now.usec < usecPerDay)
    (hv : ValidDate now.date) (hok : (execute cfg fl now st).ok = true) :
    countName (execute cfg fl now st).st.files
      (gzFileName cfg.mysql_database now.date) = 1 ∧
    countKey (execute cfg fl now st).st.remote
      (ossObjectKey cfg.oss_prefix cfg.mysql_database now.date) = 1 := by
  obtain ⟨h1, h2, h3⟩ := execute_ok_faults hok
  rw [execute_success_files h1 h2 h3, execute_success_remote h1 h2 h3]
  refine ⟨?_, countKey_putKey _ _⟩
  rw [clean_local_backups]
  rw [clean_local_go_countName _ _ (fun g _ hgf => by
    rw [hgf]
    exact localDeletes_gzFileName cfg.mysql_database hk hu hv)]
  rw [countName_delFile_ne
    (Ne.symm (dumpFileName_ne_gzFileName cfg.mysql_database _ _)),
    countName_setFile]

/-- C5: Under a valid configuration (retention window of at least a day, a
real clock value, a representable date), a successful run produces exactly
one local file named `{database}_{today}.sql.gz` and exactly one remote
object under the prefixed key; a second successful run on the same
calendar date overwrites them, again leaving exactly one artifact for that
date in each store. -/
theorem successful_run_unique_artifact (cfg : Config) (fl fl2 : Faults)
    (now now2 : DateTime) (st : St) (hk : 1 ≤ cfg.keep_local_days)
    (hu : now.usec < usecPerDay) (hv : ValidDate now.date)
    (hu2 : now2.usec < usecPerDay) (hd : now2.date = now.date)
    (h1 : (execute cfg fl now st).ok = true)
    (h2 : (execute cfg fl2 now2 (execute cfg fl now st).st).ok = true) :
    (countName (execute cfg fl now st).st.files
        (gzFileName cfg.mysql_database now.date) = 1 ∧
      countKey (execute cfg fl now st).st.remote
        (ossObjectKey cfg.oss_prefix cfg.mysql_database now.date) = 1) ∧
    (countName (execute cfg fl2 now2 (execute cfg fl now st).st).st.files
        (gzFileName cfg.mysql_database now.date) = 1 ∧
      countKey (execute cfg fl2 now2 (execute cfg fl now st).st).st.remote
        (ossObjectKey cfg.oss_prefix cfg.mysql_database now.date) = 1) := by
  refine ⟨execute_ok_counts hk hu hv h1, ?_⟩
  have hv2 : ValidDate now2.date := by rw [hd]; exact hv
  have hc := execute_ok_counts hk hu2 hv2 h2
  rwa [hd] at hc

/-- C5 witness: two consecutive clean runs on 2024-03-10. -/
theorem successful_run_unique_artifact_witness :
    (countName (execute ⟨"db", 3, "pre/", 30⟩ noFaults ⟨⟨2024, 3, 10⟩, 0⟩
        ⟨[], []⟩).st.files (gzFileName "db" ⟨2024, 3, 10⟩) = 1 ∧
      countKey (execute ⟨"db", 3, "pre/", 30⟩ noFaults ⟨⟨2024, 3, 10⟩, 0⟩
        ⟨[], []⟩).st.remote (ossObjectKey "pre/" "db" ⟨2024, 3, 10⟩) = 1) ∧
    (countName (execute ⟨"db", 3, "pre/", 30⟩ noFaults ⟨⟨2024, 3, 10⟩, 0⟩
        (execute ⟨"db", 3, "pre/", 30⟩ noFaults ⟨⟨2024, 3, 10⟩, 0⟩
          ⟨[], []⟩).st).st.files (gzFileName "db" ⟨2024, 3, 10⟩) = 1 ∧
      countKey (execute ⟨"db", 3, "pre/", 30⟩ noFaults ⟨⟨2024, 3, 10⟩, 0⟩
        (execute ⟨"db", 3, "pre/", 30⟩ noFaults ⟨⟨2024, 3, 10⟩, 0⟩
          ⟨[], []⟩).st).st.remote
        (ossObjectKey "pre/" "db" ⟨2024, 3, 10⟩) = 1) :=
  successful_run_unique_artifact ⟨"db", 3, "pre/", 30⟩ noFaults noFaults
    ⟨⟨2024, 3, 10⟩, 0⟩ ⟨⟨2024, 3, 10⟩, 0⟩ ⟨[], []⟩ (by decide) (by decide)
    (by decide) (by decide) rfl (by decide) (by decide)

/-- C7: The process exit status is 0 iff the full run succeeds (every
required environment variable present and `execute` reaching its final
success report); it is 1 exactly on any fatal failure — missing required
configuration, or the run not completing — and in particular on any
injected dump, compression, or upload failure. -/
theorem exit_code_zero_iff_done (env : String → Option String)
    (cfg : Config) (fl : Faults) (now : DateTime) (st : St) :
    (mainExitCode env cfg fl now st = 0 ↔
      (missingEnvs env = [] ∧ (execute cfg fl now st).ok = true)) ∧
    (mainExitCode env cfg fl now st = 1 ↔
      (missingEnvs env ≠ [] ∨ (execute cfg fl now st).ok = false)) ∧
    ((fl.dumpExitCode ≠ 0 ∨ fl.compressFails = true ∨
        fl.uploadFails = true) →
      mainExitCode env cfg fl now st = 1) := by
  have hfault : (fl.dumpExitCode ≠ 0 ∨ fl.compressFails = true ∨
      fl.uploadFails = true) → (execute cfg fl now st).ok = false := by
    intro h
    cases hok : (execute cfg fl now st).ok
    · rfl
    · obtain ⟨a, b, c⟩ := execute_ok_faults hok
      rcases h with h | h | h
      · exact absurd a h
      · rw [b] at h; exact absurd h (by simp)
      · rw [c] at h; exact absurd h (by simp)
  refine ⟨?_, ?_, ?_⟩
  · unfold mainExitCode
    by_cases hm : missingEnvs env = []
    · cases hok : (execute cfg fl now st).ok <;> simp [hm, hok]
    · simp [hm]
  · unfold mainExitCode
    by_cases hm : missingEnvs env = []
    · cases hok : (execute cfg fl now st).ok <;> simp [hm, hok]
    · simp [hm]
  · intro h
    have hok := hfault h
    unfold mainExitCode
    by_cases hm : missingEnvs env = []
    · simp [hm, hok]
    · simp [hm]

/-- C7 witness: with all variables set and a failing dump, the exit status
is 1. -/
theorem exit_code_zero_iff_done_witness :
    mainExitCode (fun _ => some "x") ⟨"db", 3, "pre/", 30⟩
      ⟨1, false, false⟩ ⟨⟨2024, 3, 10⟩, 0⟩ ⟨[], []⟩ = 1 :=
  (exit_code_zero_iff_done (fun _ => some "x") ⟨"db", 3, "pre/", 30⟩
    ⟨1, false, false⟩ ⟨⟨2024, 3, 10⟩, 0⟩ ⟨[], []⟩).2.2
    (Or.inl (by decide))

end MysqlBackup
